import Mathlib

/-!
Verification of the InferenceNode control-plane core against its design
specification.  The definitions below are shallow embeddings of the Python
source in `src/InferenceNode/`:

* the live-preview streaming loops of `api/routes_pipelines.py`
  (`stream_pipeline`, `stream_pipeline_hq` and their inner
  `generate_frames` generators),
* the pipeline bundle import of `api/routes_pipelines.py`
  (`import_pipeline`),
* the destination persistence protocol of `settings_manager.py`
  (`_serialize_publishers`, `_deserialize_publishers`) and of
  `inference_node.py` (`_save_settings`).

Machine integers stay `Nat`; wall-clock instants are modelled as exact
rationals (the Python source computes in binary floating point; every
concrete instance used below is exactly representable); external
collaborators (frame accessor, model repository, pipeline registry,
result-publisher destinations) are modelled by the data the source reads
from them.
-/

namespace InferenceNode

/-! ## Frames and the downscaling step (routes_pipelines.py lines 489-495 / 604-610) -/

/-- A decoded frame: `frame.shape[:2]` gives `(height, width)`; `data`
abstracts the pixel contents that encoding turns into bytes. -/
structure Frame where
  width : Nat
  height : Nat
  data : Nat
  deriving DecidableEq, Repr

/-- `if width > max: scale = max/width; new_height = int(height*scale);
cv2.resize(frame, (max, new_height))`.  Python `int` truncates toward zero;
on the nonnegative product `height * (max/width)` this is the floor, which
on exact rationals equals natural division. -/
def downscale (maxW : Nat) (f : Frame) : Frame :=
  if maxW < f.width then
    { width := maxW, height := f.height * maxW / f.width, data := f.data }
  else f

/-- The spec's words for the same step: "height = round(H × max/W)".
Kept separate from `downscale` so the two can be compared. -/
def downscaleSpecRound (maxW : Nat) (f : Frame) : Frame :=
  if maxW < f.width then
    { width := maxW,
      height := (round ((f.height * maxW : ℚ) / f.width)).toNat,
      data := f.data }
  else f

/-- The frame witnessing that `int(height * scale)` is a floor, not a
rounding: width 1280, height 3 downscaled to width 640 gives height
`int(1.5) = 1`, while `round(1.5) = 2`. -/
def roundCexFrame : Frame := { width := 1280, height := 3, data := 0 }

/-! ## The per-viewer streaming loop (routes_pipelines.py lines 451-519 and 567-634)

`stream_pipeline` and `stream_pipeline_hq` are one algorithm with different
constants; `Tier` collects those constants.  Times are exact rationals;
the sleep durations are carried for completeness (the model lets wall time
advance through the per-iteration environment, so sleeps have no further
effect on state). -/

structure Tier where
  maxWidth : Nat
  jpegQuality : Nat
  skipThreshold : ℚ
  cadenceSleep : ℚ
  missSleep : ℚ
  errSleep : ℚ
  instSleep : ℚ
  deriving DecidableEq

/-- `stream_pipeline`: threshold 1/30 s, quality 70, max width 640,
sleeps 0.01 / 0.01 / 0.1 / 0.1 s. -/
def stdTier : Tier :=
  { maxWidth := 640, jpegQuality := 70, skipThreshold := 1 / 30,
    cadenceSleep := 1 / 100, missSleep := 1 / 100, errSleep := 1 / 10,
    instSleep := 1 / 10 }

/-- `stream_pipeline_hq`: threshold 1/60 s, quality 85, max width 1280,
sleeps 0.005 / 0.005 / 0.05 / 0.05 s. -/
def hqTier : Tier :=
  { maxWidth := 1280, jpegQuality := 85, skipThreshold := 1 / 60,
    cadenceSleep := 1 / 200, missSleep := 1 / 200, errSleep := 1 / 20,
    instSleep := 1 / 20 }

/-- What one iteration of `generate_frames` observes of the outside world:
the active-pipeline registry, the pipeline instance (the frame accessor),
the wall clock, the latest frame, and whether `cv2.imencode` succeeds
(`ret`).  `raisesError` models an exception thrown inside the iteration
body, which the `except` clause absorbs. -/
structure IterEnv where
  raisesError : Bool
  activeHasPipeline : Bool
  instancePresent : Bool
  instanceHasStop : Bool
  hasIsRunning : Bool
  isRunning : Bool
  currentTime : ℚ
  frame : Option Frame
  encodeOk : Bool
  deriving DecidableEq

/-- The loop's mutable locals: `frame_count`, `retry_count`,
`last_frame_time`, plus the `pipeline_instance` variable that the
`finally` block later consults (`instPresent` = the variable is not None,
`instHasStop` = `hasattr(pipeline_instance, 'stop_streaming')`). -/
structure LoopState where
  frameCount : Nat
  retryCount : Nat
  lastFrameTime : ℚ
  instPresent : Bool
  instHasStop : Bool
  deriving DecidableEq

/-- Outcome of one loop iteration: `broke` for the `break` statements,
`cont` for every path that reaches the next iteration, carrying the frame
emitted by `yield` when there is one. -/
inductive StepOut where
  | broke (s : LoopState)
  | cont (s : LoopState) (out : Option Frame)
  deriving DecidableEq

def StepOut.stateOf : StepOut → LoopState
  | .broke s => s
  | .cont s _ => s

def StepOut.isCont : StepOut → Bool
  | .broke _ => false
  | .cont _ _ => true

/-- One iteration of the `while retry_count < max_retries` body of
`generate_frames` (routes_pipelines.py lines 466-515 / 582-630):
check active set, re-read the instance, check `is_running`, enforce
cadence, fetch the latest frame, downscale, encode, yield on success;
a missing frame or an in-iteration exception increments `retry_count`. -/
def stepIter (t : Tier) (e : IterEnv) (s : LoopState) : StepOut :=
  if e.raisesError then
    .cont { s with retryCount := s.retryCount + 1 } none
  else if !e.activeHasPipeline then
    .broke s
  else
    let s1 := { s with instPresent := e.instancePresent,
                       instHasStop := e.instanceHasStop }
    if !e.instancePresent then
      .cont { s1 with retryCount := s1.retryCount + 1 } none
    else if e.hasIsRunning && !e.isRunning then
      .broke s1
    else if e.currentTime - s1.lastFrameTime < t.skipThreshold then
      .cont s1 none
    else
      match e.frame with
      | some f =>
        if e.encodeOk then
          .cont { s1 with frameCount := s1.frameCount + 1, retryCount := 0,
                          lastFrameTime := e.currentTime }
               (some (downscale t.maxWidth f))
        else
          .cont s1 none
      | none => .cont { s1 with retryCount := s1.retryCount + 1 } none

/-- Events observable from outside the generator: a yielded multipart
chunk, or the `finally` block's cleanup (`stopped` = `stop_streaming` was
invoked, `recorded` = the frame total written to the log line). -/
inductive StreamEvent where
  | chunk (f : Frame)
  | cleanup (stopped : Bool) (recorded : Nat)
  deriving DecidableEq

def StreamEvent.isChunk : StreamEvent → Bool
  | .chunk _ => true
  | _ => false

def StreamEvent.isCleanup : StreamEvent → Bool
  | .cleanup _ _ => true
  | _ => false

/-- How control left the `while` loop: the miss cap, one of the two
`break` statements, the client disconnecting at a yield, or the generator
being closed from outside for any other reason (modelled as running out
of `fuel`). -/
inductive ExitWay where
  | cap
  | broke
  | disconnected
  | closedExternally
  deriving DecidableEq

/-- The `while retry_count < max_retries` loop.  `envs i` is what
iteration `i` observes; `disconnectAfter` models the client closing the
connection after consuming that many chunks (the generator then receives
GeneratorExit at the yield, which — not being an `Exception` — skips the
`except` clause and unwinds to `finally`); running out of `fuel` models
the generator being closed for any other external reason. -/
def loopAux (t : Tier) (envs : Nat → IterEnv) (disconnectAfter : Nat) :
    Nat → Nat → LoopState → List StreamEvent × LoopState × ExitWay
  | 0, _, s => ([], s, .closedExternally)
  | fuel + 1, i, s =>
    if 50 ≤ s.retryCount then ([], s, .cap)
    else
      match stepIter t (envs i) s with
      | .broke s2 => ([], s2, .broke)
      | .cont s2 none => loopAux t envs disconnectAfter fuel (i + 1) s2
      | .cont s2 (some f) =>
        if s2.frameCount = disconnectAfter then ([.chunk f], s2, .disconnected)
        else
          let r := loopAux t envs disconnectAfter fuel (i + 1) s2
          (.chunk f :: r.1, r.2)

/-- The locals as initialized before the loop (lines 455-462 / 571-578):
counters zero, `last_frame_time = 0`, and `pipeline_instance` from the
initial `active_pipelines.get` probe. -/
def initLoopState (instPresent instHasStop : Bool) : LoopState :=
  { frameCount := 0, retryCount := 0, lastFrameTime := 0,
    instPresent := instPresent, instHasStop := instHasStop }

/-- The whole `generate_frames` generator: the loop inside `try`, then the
`finally` block, which calls `stop_streaming` when the last-read
`pipeline_instance` is not None and has that attribute, and logs the
total streamed frame count. -/
def generateFrames (t : Tier) (envs : Nat → IterEnv) (disconnectAfter fuel : Nat)
    (init : LoopState) : List StreamEvent :=
  let r := loopAux t envs disconnectAfter fuel 0 init
  r.1 ++ [.cleanup (r.2.1.instPresent && r.2.1.instHasStop) r.2.1.frameCount]

/-! ## The stream endpoint wrapper (routes_pipelines.py lines 521-559 / 636-674) -/

/-- What `stream_pipeline` observes before deciding to open the stream. -/
structure OpenEnv where
  managerPresent : Bool
  inActive : Bool
  infoHasInstance : Bool
  hasIsRunning : Bool
  isRunning : Bool
  hasIsInitialized : Bool
  isInitialized : Bool
  hasStartStreaming : Bool
  hasStopStreaming : Bool
  pollFrame : Nat → Option Frame

/-- The endpoint's result: a JSON error `{error: msg}` with an HTTP status
code, or the multipart response whose body is the generator's event
stream. -/
inductive OpenResult where
  | jsonError (code : Nat) (msg : String)
  | streamOpen (events : List StreamEvent)

/-- `stream_pipeline` up to the point where the `Response` is returned:
precondition checks, `start_streaming`, the 5-second startup wait polling
`get_latest_frame` every 0.1 s (50 polls), and either the 503 not-ready
error (after `stop_streaming`) or the open stream.  The returned `Bool` is
the accessor's streaming-enabled flag when the call returns (`false`
initially; `start_streaming` sets it, `stop_streaming` clears it, each
guarded by `hasattr`). -/
def openStream (env : OpenEnv) (gen : List StreamEvent) : OpenResult × Bool :=
  if !env.managerPresent || !env.inActive then
    (.jsonError 404 "Pipeline not found or not running", false)
  else if !env.infoHasInstance then
    (.jsonError 404 "Pipeline instance not available", false)
  else if env.hasIsRunning && !env.isRunning then
    (.jsonError 400 "Pipeline is not running", false)
  else if env.hasIsInitialized && !env.isInitialized then
    (.jsonError 400 "Pipeline is not initialized", false)
  else
    let flag := env.hasStartStreaming
    if (List.range 50).all (fun k => (env.pollFrame k).isNone) then
      (.jsonError 503
        "Pipeline is starting - no frames available yet. Please try again in a moment.",
       if env.hasStopStreaming then false else flag)
    else
      (.streamOpen gen, flag)

/-- A concrete iteration environment in which a frame is fetched and its
encoding fails, with every guard before the fetch passing. -/
def encFailEnv : IterEnv :=
  { raisesError := false, activeHasPipeline := true, instancePresent := true,
    instanceHasStop := true, hasIsRunning := true, isRunning := true,
    currentTime := 1, frame := some { width := 100, height := 100, data := 7 },
    encodeOk := false }

/-- A concrete loop state entering the iteration above: no misses yet. -/
def encFailState : LoopState :=
  { frameCount := 0, retryCount := 0, lastFrameTime := 0,
    instPresent := true, instHasStop := true }

/-- A concrete endpoint environment whose preconditions all pass but whose
frame accessor never produces a frame during the startup wait. -/
def neverReadyEnv : OpenEnv :=
  { managerPresent := true, inActive := true, infoHasInstance := true,
    hasIsRunning := true, isRunning := true, hasIsInitialized := true,
    isInitialized := true, hasStartStreaming := true, hasStopStreaming := true,
    pollFrame := fun _ => none }

/-! ## Destination persistence (settings_manager.py, inference_node.py)

A destination object is modelled by its Python attributes: `none` means
the attribute is absent (`hasattr` false); `some v` means present with
value `v` (possibly empty/falsy).  `className` is `__class__.__name__`. -/

structure Destination where
  className : String
  id : Option String := none
  rate_limit : Option ℚ := none
  server : Option String := none
  port : Option Nat := none
  topic : Option String := none
  username : Option String := none
  password : Option String := none
  include_image_data : Option Bool := none
  url : Option String := none
  timeout : Option ℚ := none
  com_port : Option String := none
  baud : Option Nat := none
  file_path : Option String := none
  folder_path : Option String := none
  format : Option String := none
  deriving DecidableEq

/-- A JSON value appearing in a persisted destination's sparse config. -/
inductive ConfigVal where
  | vStr (s : String)
  | vNat (n : Nat)
  | vBool (b : Bool)
  | vRat (q : ℚ)
  deriving DecidableEq

/-- First-match lookup in an association list (a JSON object). -/
def lookupKey {α : Type} : List (String × α) → String → Option α
  | [], _ => none
  | (k, v) :: rest, q => if k = q then some v else lookupKey rest q

/-- Left-to-right non-overlapping replacement of `pat` by `rep`, the
semantics of Python `str.replace` on the character list.  The fuel
argument (instantiated with the list length, an upper bound on the steps
taken) keeps the recursion structural. -/
def replaceAllAux (pat rep : List Char) : Nat → List Char → List Char
  | 0, l => l
  | _ + 1, [] => []
  | fuel + 1, c :: rest =>
    if pat.isPrefixOf (c :: rest) ∧ pat ≠ [] then
      rep ++ replaceAllAux pat rep fuel (rest.drop (pat.length - 1))
    else
      c :: replaceAllAux pat rep fuel rest

/-- `dest.__class__.__name__.replace('Destination', '').lower()`
(settings_manager.py line 98). -/
def lowerTypeName (className : String) : String :=
  ⟨(replaceAllAux "Destination".data [] className.data.length className.data).map
    Char.toLower⟩

/-- A persisted destination record as written by `_serialize_publishers`. -/
structure PubRecord where
  id : Option String
  type : String
  rate_limit : Option ℚ
  config : List (String × ConfigVal)
  deriving DecidableEq

/-- `_serialize_publishers` for one destination (settings_manager.py lines
96-139): the persisted `type` comes from the class name; the config
branch is chosen by attribute presence (`server` / `url` / `com_port` /
`folder_path`, tested in that order); only truthy `username`/`password`
are written; `include_image_data` is written whenever present.  `none`
models the AttributeError raised when a branch reads an attribute
(`port`, `topic`, `baud`) that is absent. -/
def serializeOne (d : Destination) : Option PubRecord :=
  let base : List (String × ConfigVal) → PubRecord := fun cfg =>
    { id := d.id, type := lowerTypeName d.className,
      rate_limit := d.rate_limit, config := cfg }
  let userPart : List (String × ConfigVal) :=
    match d.username with
    | some u => if u ≠ "" then [("username", .vStr u)] else []
    | none => []
  let passPart : List (String × ConfigVal) :=
    match d.password with
    | some p => if p ≠ "" then [("password", .vStr p)] else []
    | none => []
  let imgPart : List (String × ConfigVal) :=
    match d.include_image_data with
    | some b => [("include_image_data", .vBool b)]
    | none => []
  if d.server.isSome then
    match d.server, d.port, d.topic with
    | some sv, some pt, some tp =>
      some (base ([("server", .vStr sv), ("port", .vNat pt), ("topic", .vStr tp)] ++
        userPart ++ passPart ++ imgPart))
    | _, _, _ => none
  else if d.url.isSome then
    match d.url with
    | some u =>
      some (base ([("url", .vStr u)] ++
        (match d.timeout with
         | some tm => [("timeout", .vRat tm)]
         | none => []) ++ imgPart))
    | none => none
  else if d.com_port.isSome then
    match d.com_port, d.baud with
    | some cp, some bd =>
      some (base ([("com_port", .vStr cp), ("baud", .vNat bd)] ++ imgPart))
    | _, _ => none
  else if d.folder_path.isSome then
    match d.folder_path with
    | some fp =>
      some (base ([("folder_path", .vStr fp)] ++
        (match d.format with
         | some fm => [("format", .vStr fm)]
         | none => [])))
    | none => none
  else
    some (base [])

/-- The structural kind inference of `_save_settings`
(inference_node.py lines 427-436): `{server, port, topic}` present ⇒
`mqtt`; else `url` ⇒ `webhook`; else `com_port` ⇒ `serial`; else
`file_path` ⇒ `file`; else `unknown`.  Note `folder_path` appears in no
rule. -/
def inferKindSave (d : Destination) : String :=
  if d.server.isSome && d.port.isSome && d.topic.isSome then "mqtt"
  else if d.url.isSome then "webhook"
  else if d.com_port.isSome then "serial"
  else if d.file_path.isSome then "file"
  else "unknown"

/-- The spec's claimed single structural inference table ("presence of
{server, port, topic} ⇒ message-bus; {url} ⇒ network-endpoint;
{com_port} ⇒ serial-port; {file_path} or {folder_path} ⇒ file/folder
sink"), written from the spec's words for comparison with the code. -/
def claimedKind (d : Destination) : Option String :=
  if d.server.isSome && d.port.isSome && d.topic.isSome then some "mqtt"
  else if d.url.isSome then some "webhook"
  else if d.com_port.isSome then some "serial"
  else if d.file_path.isSome || d.folder_path.isSome then some "file"
  else none

/-- A destination as reconstructed during settings restore.

Modelled from the spec: the class `ResultPublisher.ResultDestination`
(constructor, `set_context_variables`, `configure`, `set_rate_limit`) is
not under `src/`; per spec §4.3 Deserialize, the reconstructed
destination carries the recorded kind, the stored identifier, the owning
node's injected identity variables, the applied sparse configuration and
the applied rate limit. -/
structure RestoredDest where
  kind : String
  id : Option String
  contextNodeId : String
  contextNodeName : String
  config : List (String × ConfigVal)
  rate_limit : Option ℚ
  deriving DecidableEq

/-- One iteration of `_deserialize_publishers` (settings_manager.py lines
148-176) on a record whose reconstruction succeeds: construct the
destination of the recorded type, set `_id` when the stored id is truthy,
inject the node identity, apply the sparse config, then the rate limit if
not None.  The constructor/configure internals are modelled from the spec
(see `RestoredDest`). -/
def restoreOne (nodeId nodeName : String) (r : PubRecord) : RestoredDest :=
  let d0 : RestoredDest :=
    { kind := r.type, id := none, contextNodeId := "", contextNodeName := "",
      config := [], rate_limit := none }
  let d1 :=
    match r.id with
    | some s => if s ≠ "" then { d0 with id := some s } else d0
    | none => d0
  let d2 := { d1 with contextNodeId := nodeId, contextNodeName := nodeName }
  let d3 := { d2 with config := r.config }
  match r.rate_limit with
  | some rl => { d3 with rate_limit := some rl }
  | none => d3

/-- The bulk restore loop of `_deserialize_publishers`: each record's
whole body runs inside `try`; `fails r = some msg` models the external
reconstruction (unknown kind in the constructor, bad config in
`configure`) raising — the failure is logged and the record skipped, and
the loop moves on.  Successes are appended to the publisher in order. -/
def deserializePublishers (nodeId nodeName : String)
    (fails : PubRecord → Option String) : List PubRecord → List RestoredDest
  | [] => []
  | r :: rest =>
    match fails r with
    | some _ => deserializePublishers nodeId nodeName fails rest
    | none => restoreOne nodeId nodeName r :: deserializePublishers nodeId nodeName fails rest

/-- A destination carrying only `folder_path`: a folder sink. -/
def folderOnlyDest : Destination :=
  { className := "FolderDestination", folder_path := some "/data/out" }

/-- A message-bus destination with server, port and topic set, an empty
username, and a stable identifier. -/
def mqttDest : Destination :=
  { className := "MqttDestination", id := some "pub-1", rate_limit := some 2,
    server := some "mq.local", port := some 1883,
    topic := some "infernode/results", username := some "" }

/-! ## Pipeline bundle import (routes_pipelines.py lines 864-978) -/

/-- The decimal value of a digit character, inverse to `Nat.digitChar` on
digits below ten; used to prove decimal rendering injective. -/
def charVal (c : Char) : Nat := c.toNat - '0'.toNat

/-- The number denoted by a big-endian list of decimal digit characters. -/
def valOfDigits (ds : List Char) : Nat :=
  ds.foldl (fun a c => a * 10 + charVal c) 0

/-- `f"{original_name} (imported {counter})"` (line 956). -/
def mkImportedName (orig : String) (n : Nat) : String :=
  orig ++ " (imported " ++ toString n ++ ")"

/-- The collision loop (lines 954-957): `while pipeline_name in
existing_names: pipeline_name = f"{original_name} (imported {counter})";
counter += 1`.  Structural fuel keeps it executable; `resolveName`
supplies enough fuel for the loop to find a free name. -/
def resolveLoop (existing : List String) (orig : String) :
    Nat → String → Nat → String
  | 0, cur, _ => cur
  | fuel + 1, cur, k =>
    if cur ∈ existing then resolveLoop existing orig fuel (mkImportedName orig k) (k + 1)
    else cur

/-- Name-collision resolution as performed by `import_pipeline`: at most
`existing.length + 1` candidates can be occupied, so `existing.length + 2`
iterations always reach a free one. -/
def resolveName (existing : List String) (orig : String) : String :=
  resolveLoop existing orig (existing.length + 2) orig 1

/-- An extracted file, split as `os.path.splitext` does into the part
before the final extension and the extension itself (dot included);
`content` abstracts the bytes. -/
structure SibFile where
  stem : String
  ext : String
  content : Nat
  deriving DecidableEq

def SibFile.fullName (f : SibFile) : String := f.stem ++ f.ext

/-- The copy condition of the sibling loop (line 939): not the main model
file and not the metadata document. -/
def isCopied (mainName : String) (f : SibFile) : Bool :=
  decide (f.fullName ≠ mainName) && decide (f.fullName ≠ "model_metadata.json")

/-- Writing file `k` with contents `v` into a directory listing:
`shutil.copy2` replaces an existing entry and otherwise appends. -/
def upsert (dir : List (String × Nat)) (k : String) (v : Nat) :
    List (String × Nat) :=
  if dir.any (fun p => decide (p.1 = k)) then
    dir.map (fun p => if p.1 = k then (k, v) else p)
  else dir ++ [(k, v)]

/-- The sibling-copy loop (lines 938-944): every extracted model file
other than the main file and the metadata document is copied into the new
model's directory as `{new_model_base}{original_extension}`. -/
def copySiblings (base mainName : String) :
    List SibFile → List (String × Nat) → List (String × Nat)
  | [], dir => dir
  | f :: rest, dir =>
    if isCopied mainName f then
      copySiblings base mainName rest (upsert dir (base ++ f.ext) f.content)
    else
      copySiblings base mainName rest dir

/-- The last file in the list carrying extension `e` — the one whose copy
survives the overwrites. -/
def lastWithExt (e : String) : List SibFile → Option SibFile
  | [] => none
  | f :: fs =>
    match lastWithExt e fs with
    | some g => some g
    | none => if f.ext = e then some f else none

/-- The `model` field of the root configuration document. -/
structure ModelField where
  engine_type : Option String := none
  deriving DecidableEq

/-- The root configuration document `pipeline_config.json`; `none` fields
are absent keys (the `field not in config_data` checks). -/
structure ConfigDoc where
  name : Option String := none
  frame_source : Option String := none
  model : Option ModelField := none
  export_metadata : Bool := false
  deriving DecidableEq

/-- The extracted `models/model_metadata.json` document. -/
structure ModelMeta where
  stored_filename : Option String := none
  original_filename : Option String := none
  name : Option String := none
  deriving DecidableEq

/-- The extracted `models/` area: optional metadata document plus the
directory listing (in `os.listdir` order). -/
structure ModelsArea where
  metadata : Option ModelMeta := none
  files : List SibFile := []
  deriving DecidableEq

/-- The uploaded archive after extraction. -/
structure Archive where
  config : Option ConfigDoc := none
  modelsArea : Option ModelsArea := none
  deriving DecidableEq

/-- A stored model: the repository-chosen base name and the storage
directory listing. -/
structure ModelEntry where
  base : String
  dir : List (String × Nat)
  deriving DecidableEq

/-- The registries `import_pipeline` can mutate: the model repository and
the pipeline registry (ids handed out sequentially). -/
structure NodeState where
  models : List (Nat × ModelEntry)
  pipelines : List (Nat × String)
  nextModelId : Nat
  nextPipelineId : Nat
  deriving DecidableEq

inductive ImportResult where
  | err (code : Nat) (msg : String)
  | ok (pipelineId : Nat) (pipelineName : String) (modelId : Option Nat)
  deriving DecidableEq

/-- `import_pipeline` (lines 889-974) after extraction: require the root
configuration document, require `name`, `frame_source`, `model` in that
order; then, when a `models/` area with files exists, choose the main
file (metadata's `stored_filename` when among the files, else the first
listed), re-store it under a fresh id with the repository-chosen base
name (`storedBaseOf`, the external Model Repository's naming), copy the
remaining files via `copySiblings`, resolve the pipeline name collision
and create the pipeline.  Validation failures return before any registry
mutation. -/
def importPipeline (storedBaseOf : Nat → String) (a : Archive) (st : NodeState) :
    ImportResult × NodeState :=
  match a.config with
  | none => (.err 400 "Invalid pipeline export: missing pipeline_config.json", st)
  | some c =>
    if c.name.isNone then
      (.err 400 "Invalid pipeline configuration: missing name", st)
    else if c.frame_source.isNone then
      (.err 400 "Invalid pipeline configuration: missing frame_source", st)
    else if c.model.isNone then
      (.err 400 "Invalid pipeline configuration: missing model", st)
    else
      let mres : Option Nat × NodeState :=
        match a.modelsArea with
        | none => (none, st)
        | some ma =>
          let modelFiles :=
            ma.files.filter (fun f => decide (f.fullName ≠ "model_metadata.json"))
          match modelFiles with
          | [] => (none, st)
          | m0 :: _ =>
            let mainName :=
              match ma.metadata with
              | some meta =>
                match meta.stored_filename with
                | some sf =>
                  if sf ∈ modelFiles.map SibFile.fullName then sf else m0.fullName
                | none => m0.fullName
              | none => m0.fullName
            let mainFile :=
              (modelFiles.find? (fun f => decide (f.fullName = mainName))).getD m0
            let newId := st.nextModelId
            let base := storedBaseOf newId
            let dir := copySiblings base mainName modelFiles
              [(base ++ mainFile.ext, mainFile.content)]
            (some newId,
             { st with models := st.models ++ [(newId, { base := base, dir := dir })],
                       nextModelId := newId + 1 })
      let st1 := mres.2
      let newName := resolveName (st1.pipelines.map Prod.snd) (c.name.getD "")
      let pid := st1.nextPipelineId
      (.ok pid newName mres.1,
       { st1 with pipelines := st1.pipelines ++ [(pid, newName)],
                  nextPipelineId := pid + 1 })

end InferenceNode

namespace InferenceNode

/-! ## Theorems -/

/-- Claim C2 (counterexample): the streaming loop's downscale computes
`int(height * max/width)` — a floor — not `round(height * max/width)` as
the claim states: at width 1280, height 3 with max width 640 the code
produces height 1 while the claim requires height 2. -/
theorem downscale_round_cex :
    (downscale 640 roundCexFrame).height = 1 ∧
    (downscaleSpecRound 640 roundCexFrame).height = 2 ∧
    downscale 640 roundCexFrame ≠ downscaleSpecRound 640 roundCexFrame := by
  refine ⟨rfl, ?_, ?_⟩
  · show (round ((3 * 640 : ℚ) / 1280)).toNat = 2
    norm_num [round_eq]
    decide
  · intro h
    have h1 : (downscale 640 roundCexFrame).height = 1 := rfl
    have h2 : (downscaleSpecRound 640 roundCexFrame).height = 2 := by
      show (round ((3 * 640 : ℚ) / 1280)).toNat = 2
      norm_num [round_eq]
      decide
    rw [h] at h1
    omega

/-- Claim C2 (amended): in the streaming loop, a frame of width `W`
exceeding the tier's max width is resized to exactly the max width with
height `⌊H × max/W⌋` (Python `int()` truncation of the nonnegative
product), and a frame of width at most the max width is emitted
unscaled. -/
theorem downscale_floor (maxW : Nat) (f : Frame) :
    (maxW < f.width →
      downscale maxW f =
        { width := maxW,
          height := ⌊(f.height * maxW : ℚ) / f.width⌋₊,
          data := f.data }) ∧
    (f.width ≤ maxW → downscale maxW f = f) := by
  constructor
  · intro h
    have hfloor : ⌊(f.height * maxW : ℚ) / f.width⌋₊ = f.height * maxW / f.width := by
      have := Nat.floor_div_nat ((f.height * maxW : Nat) : ℚ) f.width
      rw [Nat.floor_natCast] at this
      rw [← this]
      norm_num
    rw [hfloor]
    simp [downscale, h]
  · intro h
    simp [downscale, Nat.not_lt.mpr h]

/-- Witness for `downscale_floor` at a concrete frame in each branch. -/
theorem downscale_floor_witness :
    downscale 640 { width := 1280, height := 3, data := 5 } =
      { width := 640, height := ⌊((3 : Nat) * (640 : Nat) : ℚ) / (1280 : Nat)⌋₊, data := 5 } ∧
    downscale 640 { width := 640, height := 480, data := 5 } =
      { width := 640, height := 480, data := 5 } :=
  ⟨(downscale_floor 640 { width := 1280, height := 3, data := 5 }).1 (by decide),
   (downscale_floor 640 { width := 640, height := 480, data := 5 }).2 (by decide)⟩

/-- How one iteration changes `frame_count`: unchanged on both `break`
paths and on every retry path, incremented exactly when a chunk is
yielded. -/
theorem stepIter_frameCount (t : Tier) (e : IterEnv) (s : LoopState) :
    (∀ s2, stepIter t e s = .broke s2 → s2.frameCount = s.frameCount) ∧
    (∀ s2, stepIter t e s = .cont s2 none → s2.frameCount = s.frameCount) ∧
    (∀ s2 f, stepIter t e s = .cont s2 (some f) → s2.frameCount = s.frameCount + 1) := by
  refine ⟨?_, ?_, ?_⟩ <;> intro s2 <;>
    cases hf : e.frame <;>
      simp only [stepIter, hf] <;> split_ifs <;>
        simp_all <;> (rintro rfl; rfl)

/-- The loop body yields only chunks (cleanup comes from `finally` alone),
and its final `frame_count` is the entry `frame_count` plus the number of
chunks yielded. -/
theorem loopAux_chunkCount (t : Tier) (envs : Nat → IterEnv) (d : Nat) :
    ∀ fuel i s,
      (loopAux t envs d fuel i s).1.countP StreamEvent.isCleanup = 0 ∧
      (loopAux t envs d fuel i s).2.1.frameCount =
        s.frameCount + (loopAux t envs d fuel i s).1.countP StreamEvent.isChunk := by
  intro fuel
  induction fuel with
  | zero => intro i s; simp [loopAux]
  | succ n ih =>
    intro i s
    simp only [loopAux]
    split_ifs with hcap
    · simp
    · cases hstep : stepIter t (envs i) s with
      | broke s2 =>
        have h2 := (stepIter_frameCount t (envs i) s).1 s2 hstep
        simp [h2]
      | cont s2 out =>
        cases out with
        | none =>
          have h2 := (stepIter_frameCount t (envs i) s).2.1 s2 hstep
          dsimp only
          have hi := ih (i + 1) s2
          exact ⟨hi.1, by rw [hi.2, h2]⟩
        | some f =>
          have h2 := (stepIter_frameCount t (envs i) s).2.2 s2 f hstep
          dsimp only
          split_ifs with hdc
          · simp [StreamEvent.isCleanup, StreamEvent.isChunk, h2, List.countP_cons]
          · have hi := ih (i + 1) s2
            have hi1 := hi.1
            have hi2 := hi.2
            constructor
            · simp [List.countP_cons, StreamEvent.isCleanup, hi1]
            · simp [List.countP_cons, StreamEvent.isChunk]
              omega

/-- Claim C5: on every termination path of the per-viewer loop — client
disconnect at a yield, miss cap, either `break` (pipeline stopped or
removed from the active set), or external closure of the generator — the
`finally` cleanup appears exactly once and last in the event sequence;
its recorded count equals the number of chunks emitted; and
`stop_streaming` is invoked precisely when the last-read pipeline
instance is present and exposes that control. -/
theorem streamCleanup_once (t : Tier) (envs : Nat → IterEnv) (d fuel : Nat) (ip ih : Bool) :
    (generateFrames t envs d fuel (initLoopState ip ih)).countP StreamEvent.isCleanup = 1 ∧
    (∃ b n, (generateFrames t envs d fuel (initLoopState ip ih)).getLast? =
              some (.cleanup b n)) ∧
    (∀ b n, StreamEvent.cleanup b n ∈ generateFrames t envs d fuel (initLoopState ip ih) →
      n = (generateFrames t envs d fuel (initLoopState ip ih)).countP StreamEvent.isChunk ∧
      b = ((loopAux t envs d fuel 0 (initLoopState ip ih)).2.1.instPresent &&
           (loopAux t envs d fuel 0 (initLoopState ip ih)).2.1.instHasStop)) := by
  have hlp := loopAux_chunkCount t envs d fuel 0 (initLoopState ip ih)
  have hcnt := hlp.1
  refine ⟨?_, ?_, ?_⟩
  · simp [generateFrames, List.countP_append, hcnt, StreamEvent.isCleanup]
  · exact ⟨((loopAux t envs d fuel 0 (initLoopState ip ih)).2.1.instPresent &&
            (loopAux t envs d fuel 0 (initLoopState ip ih)).2.1.instHasStop),
           (loopAux t envs d fuel 0 (initLoopState ip ih)).2.1.frameCount,
           List.getLast?_concat _⟩
  · intro b n hmem
    simp only [generateFrames, List.mem_append, List.mem_singleton] at hmem
    rcases hmem with hmem | hmem
    · exfalso
      have : 0 < (loopAux t envs d fuel 0 (initLoopState ip ih)).1.countP
          StreamEvent.isCleanup :=
        List.countP_pos_iff.mpr ⟨_, hmem, rfl⟩
      omega
    · have hb : b = ((loopAux t envs d fuel 0 (initLoopState ip ih)).2.1.instPresent &&
                     (loopAux t envs d fuel 0 (initLoopState ip ih)).2.1.instHasStop) :=
        (StreamEvent.cleanup.injEq _ _ _ _).mp hmem |>.1
      have hn : n = (loopAux t envs d fuel 0 (initLoopState ip ih)).2.1.frameCount :=
        (StreamEvent.cleanup.injEq _ _ _ _).mp hmem |>.2
      refine ⟨?_, hb⟩
      rw [hn, hlp.2]
      have h0 : (initLoopState ip ih).frameCount = 0 := rfl
      rw [h0]
      simp [generateFrames, List.countP_append, StreamEvent.isChunk]

/-- Witness for `streamCleanup_once`: a freshly closed generator (fuel 0)
emits exactly the single cleanup event, recording zero frames. -/
theorem streamCleanup_once_witness :
    (StreamEvent.cleanup true 0 ∈
        generateFrames stdTier (fun _ => encFailEnv) 0 0 (initLoopState true true)) ∧
    (0 : Nat) = (generateFrames stdTier (fun _ => encFailEnv) 0 0
        (initLoopState true true)).countP StreamEvent.isChunk := by
  have hmem : StreamEvent.cleanup true 0 ∈
      generateFrames stdTier (fun _ => encFailEnv) 0 0 (initLoopState true true) := by
    simp [generateFrames, loopAux, initLoopState]
  exact ⟨hmem,
    (streamCleanup_once stdTier (fun _ => encFailEnv) 0 0 true true).2.2 true 0 hmem |>.1⟩

/-- Claim C1 (counterexample): in an iteration that fetches a frame whose
encoding fails (`ret` false), `retry_count` is NOT incremented — the
failed `if ret:` test simply falls through, leaving the counter unchanged
(the loop does continue). -/
theorem encodeFailure_cex :
    encFailEnv.frame.isSome = true ∧
    encFailEnv.encodeOk = false ∧
    (stepIter stdTier encFailEnv encFailState).isCont = true ∧
    (stepIter stdTier encFailEnv encFailState).stateOf.retryCount = 0 ∧
    (stepIter stdTier encFailEnv encFailState).stateOf.retryCount ≠
      encFailState.retryCount + 1 := by
  have hc : ¬((1 : ℚ) - 0 < 1 / 30) := by norm_num
  have hstep : stepIter stdTier encFailEnv encFailState = .cont encFailState none := by
    simp [stepIter, encFailEnv, encFailState, stdTier, hc]
  refine ⟨rfl, rfl, ?_, ?_, ?_⟩ <;> rw [hstep] <;> first | rfl | decide

/-- Claim C1 (amended): when a frame is fetched and encoding it fails, the
iteration leaves the consecutive-miss counter unchanged (it is not
incremented) and the loop continues without yielding; consequently encode
failures alone never terminate the loop — under an unbroken run of such
iterations the loop neither breaks nor reaches the miss cap, emits
nothing, and its miss counter never moves. -/
theorem encodeFailure_keepsCounter :
    (∀ (t : Tier) (e : IterEnv) (s : LoopState) (f : Frame),
      e.raisesError = false → e.activeHasPipeline = true →
      e.instancePresent = true →
      (e.hasIsRunning = true → e.isRunning = true) →
      ¬(e.currentTime - s.lastFrameTime < t.skipThreshold) →
      e.frame = some f → e.encodeOk = false →
      stepIter t e s =
        .cont { s with instPresent := true, instHasStop := e.instanceHasStop } none) ∧
    (∀ (t : Tier) (envs : Nat → IterEnv) (d : Nat) (s : LoopState),
      s.retryCount < 50 →
      (∀ j, (envs j).raisesError = false ∧ (envs j).activeHasPipeline = true ∧
            (envs j).instancePresent = true ∧
            ((envs j).hasIsRunning = true → (envs j).isRunning = true) ∧
            ¬((envs j).currentTime - s.lastFrameTime < t.skipThreshold) ∧
            ((envs j).frame).isSome = true ∧ (envs j).encodeOk = false) →
      ∀ fuel i, (loopAux t envs d fuel i s).2.2 = ExitWay.closedExternally ∧
                (loopAux t envs d fuel i s).2.1.retryCount = s.retryCount ∧
                (loopAux t envs d fuel i s).1 = []) := by
  have step1 : ∀ (t : Tier) (e : IterEnv) (s : LoopState) (f : Frame),
      e.raisesError = false → e.activeHasPipeline = true →
      e.instancePresent = true →
      (e.hasIsRunning = true → e.isRunning = true) →
      ¬(e.currentTime - s.lastFrameTime < t.skipThreshold) →
      e.frame = some f → e.encodeOk = false →
      stepIter t e s =
        .cont { s with instPresent := true, instHasStop := e.instanceHasStop } none := by
    intro t e s f h1 h2 h3 h4 h5 h6 h7
    have hrun : (e.hasIsRunning && !e.isRunning) = false := by
      cases hr : e.hasIsRunning
      · simp
      · simp [h4 hr]
    simp [stepIter, h1, h2, h3, hrun, h5, h6, h7]
  refine ⟨step1, ?_⟩
  intro t envs d s hcap henvs
  have aux : ∀ fuel i (s' : LoopState),
      s'.retryCount = s.retryCount → s'.frameCount = s.frameCount →
      s'.lastFrameTime = s.lastFrameTime →
      (loopAux t envs d fuel i s').2.2 = ExitWay.closedExternally ∧
      (loopAux t envs d fuel i s').2.1.retryCount = s.retryCount ∧
      (loopAux t envs d fuel i s').1 = [] := by
    intro fuel
    induction fuel with
    | zero => intro i s' hr _ _; simp [loopAux, hr]
    | succ n ihn =>
      intro i s' hr hf hl
      obtain ⟨h1, h2, h3, h4, h5, h6, h7⟩ := henvs i
      obtain ⟨f, hfr⟩ := Option.isSome_iff_exists.mp h6
      have hstep := step1 t (envs i) s' f h1 h2 h3 h4 (by rw [hl]; exact h5) hfr h7
      have hnc : ¬ (50 ≤ s'.retryCount) := by omega
      simp only [loopAux, if_neg hnc, hstep]
      exact ihn (i + 1) _ hr hf hl
  intro fuel i
  exact aux fuel i s rfl rfl rfl

/-- Witness for `encodeFailure_keepsCounter`: the step-level part applied
to the concrete encode-failure iteration. -/
theorem encodeFailure_keepsCounter_witness :
    stepIter stdTier encFailEnv encFailState =
      .cont { encFailState with instPresent := true, instHasStop := true } none :=
  encodeFailure_keepsCounter.1 stdTier encFailEnv encFailState
    { width := 100, height := 100, data := 7 }
    rfl rfl rfl (fun _ => rfl) (by norm_num [encFailEnv, encFailState, stdTier]) rfl rfl

/-- Claim C3: if the endpoint's preconditions all pass but the frame
accessor yields no frame at any of the 50 startup polls (5 s at 100 ms),
the call returns the retryable 503 "not ready" error with the
streaming-enabled flag cleared, and no stream response (hence no chunk)
is produced — whatever the generator would have yielded. -/
theorem openStream_notReady (env : OpenEnv) (gen : List StreamEvent)
    (h1 : env.managerPresent = true) (h2 : env.inActive = true)
    (h3 : env.infoHasInstance = true)
    (h4 : env.hasIsRunning = true → env.isRunning = true)
    (h5 : env.hasIsInitialized = true → env.isInitialized = true)
    (h6 : env.hasStopStreaming = env.hasStartStreaming)
    (h7 : ∀ k, k < 50 → env.pollFrame k = none) :
    openStream env gen =
      (.jsonError 503
        "Pipeline is starting - no frames available yet. Please try again in a moment.",
       false) := by
  have hrun : (env.hasIsRunning && !env.isRunning) = false := by
    cases hr : env.hasIsRunning
    · simp
    · simp [h4 hr]
  have hinit : (env.hasIsInitialized && !env.isInitialized) = false := by
    cases hi : env.hasIsInitialized
    · simp
    · simp [h5 hi]
  have hall : (List.range 50).all (fun k => (env.pollFrame k).isNone) = true := by
    rw [List.all_eq_true]
    intro k hk
    rw [h7 k (List.mem_range.mp hk)]
    rfl
  have hflag : (if env.hasStopStreaming then false else env.hasStartStreaming) = false := by
    cases hs : env.hasStopStreaming
    · simp [← h6, hs]
    · simp
  simp [openStream, h1, h2, h3, hrun, hinit, hall, hflag]

/-- Witness for `openStream_notReady` on the concrete never-ready
environment. -/
theorem openStream_notReady_witness :
    openStream neverReadyEnv [] =
      (.jsonError 503
        "Pipeline is starting - no frames available yet. Please try again in a moment.",
       false) :=
  openStream_notReady neverReadyEnv [] rfl rfl rfl (fun _ => rfl) (fun _ => rfl) rfl
    (fun _ _ => rfl)

/-- Lookup distributes over association-list append, preferring the left
part. -/
theorem lookupKey_append {α : Type} (l1 l2 : List (String × α)) (k : String) :
    lookupKey (l1 ++ l2) k =
      match lookupKey l1 k with
      | some v => some v
      | none => lookupKey l2 k := by
  induction l1 with
  | nil => simp [lookupKey]
  | cons p rest ihp =>
    by_cases h : p.1 = k
    · simp [lookupKey, h]
    · simp [lookupKey, h, ihp]

/-- Claim C4 (counterexample): a destination carrying only `folder_path`
— which the spec's single inference table maps to a file/folder sink —
is persisted by `_save_settings` with kind `unknown`: the two persistence
paths do not implement the claimed table. -/
theorem kindInference_cex :
    folderOnlyDest.folder_path.isSome = true ∧
    claimedKind folderOnlyDest = some "file" ∧
    inferKindSave folderOnlyDest = "unknown" ∧
    inferKindSave folderOnlyDest ≠ "file" := by
  refine ⟨rfl, rfl, rfl, ?_⟩
  decide

/-- Claim C4 (amended): the two persistence paths infer the persisted
kind differently.  `_save_settings` uses the structural chain
{server, port, topic} ⇒ mqtt, else {url} ⇒ webhook, else {com_port} ⇒
serial, else {file_path} ⇒ file, else unknown — `folder_path` is in no
rule.  `_serialize_publishers` instead derives the persisted type from
the destination's class name (lower-cased, with the `Destination` suffix
stripped), not from attribute presence. -/
theorem kindInference_amended :
    (∀ d : Destination,
      (d.server.isSome = true → d.port.isSome = true → d.topic.isSome = true →
        inferKindSave d = "mqtt") ∧
      ((d.server.isSome && d.port.isSome && d.topic.isSome) = false →
        d.url.isSome = true → inferKindSave d = "webhook") ∧
      ((d.server.isSome && d.port.isSome && d.topic.isSome) = false →
        d.url.isSome = false → d.com_port.isSome = true →
        inferKindSave d = "serial") ∧
      ((d.server.isSome && d.port.isSome && d.topic.isSome) = false →
        d.url.isSome = false → d.com_port.isSome = false →
        d.file_path.isSome = true → inferKindSave d = "file") ∧
      ((d.server.isSome && d.port.isSome && d.topic.isSome) = false →
        d.url.isSome = false → d.com_port.isSome = false →
        d.file_path.isSome = false → inferKindSave d = "unknown")) ∧
    (∀ (d : Destination) (r : PubRecord), serializeOne d = some r →
      r.type = lowerTypeName d.className) := by
  constructor
  · intro d
    refine ⟨?_, ?_, ?_, ?_, ?_⟩
    · intro hs hp ht; simp [inferKindSave, hs, hp, ht]
    · intro hc hu; simp [inferKindSave, hc, hu]
    · intro hc hu hcp; simp [inferKindSave, hc, hu, hcp]
    · intro hc hu hcp hf; simp [inferKindSave, hc, hu, hcp, hf]
    · intro hc hu hcp hf; simp [inferKindSave, hc, hu, hcp, hf]
  · intro d r h
    simp only [serializeOne] at h
    repeat' split at h
    all_goals simp_all
    all_goals exact h.symm ▸ rfl

/-- Witness for `kindInference_amended`: the save-path table at concrete
destinations, and the class-name-derived type on the serialize path. -/
theorem kindInference_amended_witness :
    inferKindSave mqttDest = "mqtt" ∧
    inferKindSave folderOnlyDest = "unknown" ∧
    (∀ r, serializeOne folderOnlyDest = some r →
      r.type = lowerTypeName "FolderDestination") := by
  refine ⟨?_, ?_, ?_⟩
  · exact (kindInference_amended.1 mqttDest).1 rfl rfl rfl
  · exact (kindInference_amended.1 folderOnlyDest).2.2.2.2 rfl rfl rfl rfl
  · exact fun r h => kindInference_amended.2 folderOnlyDest r h

/-- The restored destination's kind is the record's persisted type. -/
theorem restoreOne_kind (nid nn : String) (r : PubRecord) :
    (restoreOne nid nn r).kind = r.type := by
  simp only [restoreOne]
  cases r.rate_limit <;> cases r.id <;> simp
  all_goals split <;> rfl

/-- The restored destination's config is the record's sparse config. -/
theorem restoreOne_config (nid nn : String) (r : PubRecord) :
    (restoreOne nid nn r).config = r.config := by
  simp only [restoreOne]
  cases r.rate_limit <;> cases r.id <;> simp

/-- The restored destination keeps the stored id exactly when it is
truthy. -/
theorem restoreOne_id (nid nn : String) (r : PubRecord) :
    (restoreOne nid nn r).id =
      match r.id with
      | some s => if s = "" then none else some s
      | none => none := by
  simp only [restoreOne]
  cases r.rate_limit <;> cases hi : r.id <;> simp
  all_goals split <;> simp_all

/-- Claim C6: serializing a message-bus destination whose `server`,
`port`, `topic` are set, whose `username` is the empty string, and whose
identifier is a (truthy) stable id, then restoring the record, yields a
destination with no `username` in its configuration, the same
server/port/topic values, the message-bus kind, and the identical
identifier. -/
theorem mqttRoundTrip (d : Destination) (sv : String) (pt : Nat) (tp i nid nn : String)
    (hc : d.className = "MqttDestination")
    (hs : d.server = some sv) (hp : d.port = some pt) (ht : d.topic = some tp)
    (hu : d.username = some "") (hid : d.id = some i) (hne : i ≠ "") :
    ∃ rec, serializeOne d = some rec ∧
      rec.type = "mqtt" ∧
      lookupKey rec.config "username" = none ∧
      (restoreOne nid nn rec).kind = "mqtt" ∧
      (restoreOne nid nn rec).id = some i ∧
      lookupKey (restoreOne nid nn rec).config "server" = some (.vStr sv) ∧
      lookupKey (restoreOne nid nn rec).config "port" = some (.vNat pt) ∧
      lookupKey (restoreOne nid nn rec).config "topic" = some (.vStr tp) ∧
      lookupKey (restoreOne nid nn rec).config "username" = none := by
  have htype : lowerTypeName d.className = "mqtt" := by rw [hc]; decide
  have hrec : serializeOne d = some
      { id := d.id, type := lowerTypeName d.className, rate_limit := d.rate_limit,
        config := [("server", .vStr sv), ("port", .vNat pt), ("topic", .vStr tp)] ++
          ([] : List (String × ConfigVal)) ++
          (match d.password with
           | some p => if p ≠ "" then [("password", ConfigVal.vStr p)] else []
           | none => []) ++
          (match d.include_image_data with
           | some b => [("include_image_data", ConfigVal.vBool b)]
           | none => []) } := by
    simp [serializeOne, hs, hp, ht, hu]
  have hpw : lookupKey
      ((match d.password with
        | some p => if p = "" then [] else [("password", ConfigVal.vStr p)]
        | none => []) : List (String × ConfigVal)) "username" = none := by
    cases hq : d.password with
    | none => rfl
    | some p =>
      by_cases hp0 : p = "" <;> simp [hp0, lookupKey]
  have himg : lookupKey
      ((match d.include_image_data with
        | some b => [("include_image_data", ConfigVal.vBool b)]
        | none => []) : List (String × ConfigVal)) "username" = none := by
    cases hq : d.include_image_data with
    | none => rfl
    | some b => simp [lookupKey]
  refine ⟨_, hrec, htype, ?_, ?_, ?_, ?_, ?_, ?_, ?_⟩
  · rw [lookupKey_append, lookupKey_append, lookupKey_append]
    simp [lookupKey, hpw, himg]
  · rw [restoreOne_kind]
    exact htype
  · rw [restoreOne_id]
    simp [hid, hne]
  · rw [restoreOne_config]
    rw [lookupKey_append, lookupKey_append, lookupKey_append]
    simp [lookupKey]
  · rw [restoreOne_config]
    rw [lookupKey_append, lookupKey_append, lookupKey_append]
    simp [lookupKey]
  · rw [restoreOne_config]
    rw [lookupKey_append, lookupKey_append, lookupKey_append]
    simp [lookupKey]
  · rw [restoreOne_config]
    rw [lookupKey_append, lookupKey_append, lookupKey_append]
    simp [lookupKey, hpw, himg]

/-- Witness for `mqttRoundTrip` at the concrete destination `mqttDest`. -/
theorem mqttRoundTrip_witness :
    ∃ rec, serializeOne mqttDest = some rec ∧
      rec.type = "mqtt" ∧
      lookupKey rec.config "username" = none ∧
      (restoreOne "node-1" "NodeOne" rec).kind = "mqtt" ∧
      (restoreOne "node-1" "NodeOne" rec).id = some "pub-1" ∧
      lookupKey (restoreOne "node-1" "NodeOne" rec).config "server" =
        some (.vStr "mq.local") ∧
      lookupKey (restoreOne "node-1" "NodeOne" rec).config "port" = some (.vNat 1883) ∧
      lookupKey (restoreOne "node-1" "NodeOne" rec).config "topic" =
        some (.vStr "infernode/results") ∧
      lookupKey (restoreOne "node-1" "NodeOne" rec).config "username" = none :=
  mqttRoundTrip mqttDest "mq.local" 1883 "infernode/results" "pub-1" "node-1" "NodeOne"
    rfl rfl rfl rfl rfl rfl (by decide)

/-- Claim C9: bulk destination restoration keeps exactly the records whose
reconstruction succeeds, in order — a record that fails (bad config,
unknown kind) is skipped without aborting the others; deleting a failing
record from the list leaves the restoration of the rest unchanged. -/
theorem restoreIsolation :
    (∀ (nid nn : String) (fails : PubRecord → Option String)
        (records : List PubRecord),
      deserializePublishers nid nn fails records =
        (records.filter (fun r => (fails r).isNone)).map (restoreOne nid nn)) ∧
    (∀ (nid nn : String) (fails : PubRecord → Option String)
        (pre post : List PubRecord) (r : PubRecord), (fails r).isSome = true →
      deserializePublishers nid nn fails (pre ++ r :: post) =
        deserializePublishers nid nn fails (pre ++ post)) := by
  have part1 : ∀ (nid nn : String) (fails : PubRecord → Option String)
      (records : List PubRecord),
      deserializePublishers nid nn fails records =
        (records.filter (fun r => (fails r).isNone)).map (restoreOne nid nn) := by
    intro nid nn fails records
    induction records with
    | nil => rfl
    | cons r rest ihr =>
      cases hf : fails r with
      | some msg => simp [deserializePublishers, hf, ihr, List.filter_cons]
      | none => simp [deserializePublishers, hf, ihr, List.filter_cons]
  refine ⟨part1, ?_⟩
  intro nid nn fails pre post r hr
  rw [part1, part1]
  have : (fails r).isNone = false := by
    cases hf : fails r
    · rw [hf] at hr; simp at hr
    · rfl
  simp [List.filter_append, List.filter_cons, this]

/-- Witness for `restoreIsolation`: a always-failing record between two
empty halves restores to the same (empty) destination list as its
deletion. -/
theorem restoreIsolation_witness :
    deserializePublishers "n" "m" (fun _ => some "bad config")
        ([] ++ ({ id := none, type := "mqtt", rate_limit := none, config := [] } :
          PubRecord) :: []) =
      deserializePublishers "n" "m" (fun _ => some "bad config") ([] ++ []) :=
  restoreIsolation.2 "n" "m" (fun _ => some "bad config") [] []
    { id := none, type := "mqtt", rate_limit := none, config := [] } rfl

/-- The decimal digit value function inverts `Nat.digitChar` below ten. -/
theorem charVal_digitChar (k : Nat) (hk : k < 10) : charVal (Nat.digitChar k) = k := by
  interval_cases k <;> decide

/-- `Nat.toDigitsCore` only prepends to its accumulator. -/
theorem toDigitsCore_acc (fuel : Nat) : ∀ (n : Nat) (ds : List Char),
    Nat.toDigitsCore 10 fuel n ds = Nat.toDigitsCore 10 fuel n [] ++ ds := by
  induction fuel with
  | zero => intro n ds; simp [Nat.toDigitsCore]
  | succ f ihf =>
    intro n ds
    simp only [Nat.toDigitsCore]
    by_cases h : n / 10 = 0
    · simp [h]
    · simp only [h, if_false]
      rw [ihf (n / 10) (Nat.digitChar (n % 10) :: ds), ihf (n / 10) [Nat.digitChar (n % 10)]]
      simp

/-- With enough fuel, the decimal digits of `n` evaluate back to `n`. -/
theorem valOfDigits_toDigitsCore (fuel : Nat) : ∀ n, n < fuel →
    valOfDigits (Nat.toDigitsCore 10 fuel n []) = n := by
  induction fuel with
  | zero => intro n hn; omega
  | succ f ihf =>
    intro n hn
    simp only [Nat.toDigitsCore]
    by_cases h : n / 10 = 0
    · have hlt : n < 10 := by omega
      simp only [h, if_true]
      show valOfDigits [Nat.digitChar (n % 10)] = n
      simp [valOfDigits, Nat.mod_eq_of_lt hlt, charVal_digitChar n hlt]
    · simp only [h, if_false]
      rw [toDigitsCore_acc]
      have hdiv : n / 10 < f := by
        have h1 : n / 10 < n := Nat.div_lt_self (by omega) (by norm_num)
        omega
      have hval := ihf (n / 10) hdiv
      simp only [valOfDigits, List.foldl_append] at *
      simp [hval, charVal_digitChar (n % 10) (Nat.mod_lt _ (by norm_num))]
      omega

/-- Decimal rendering of naturals is injective. -/
theorem natRepr_inj : Function.Injective Nat.repr := by
  intro m n h
  have hd : (Nat.toDigits 10 m) = (Nat.toDigits 10 n) := by
    have := congrArg String.data h
    simpa [Nat.repr, List.asString] using this
  have hm := valOfDigits_toDigitsCore (m + 1) m (by omega)
  have hn := valOfDigits_toDigitsCore (n + 1) n (by omega)
  simp only [Nat.toDigits] at hd
  rw [hd] at hm
  rw [hn] at hm
  exact hm.symm

/-- Distinct counters give distinct candidate names. -/
theorem mkImportedName_inj (orig : String) {a b : Nat}
    (h : mkImportedName orig a = mkImportedName orig b) : a = b := by
  have hd := congrArg String.data h
  simp only [mkImportedName, String.data_append, List.append_assoc] at hd
  have h1 := List.append_cancel_left hd
  have h2 := List.append_cancel_left h1
  have h3 := List.append_cancel_right h2
  have : (toString a : String) = toString b := String.ext h3
  exact natRepr_inj this

/-- A generated candidate never equals the original name. -/
theorem mkImportedName_ne (orig : String) (n : Nat) : mkImportedName orig n ≠ orig := by
  intro h
  have hd := congrArg (fun s => s.data.length) h
  simp [mkImportedName, String.data_append, List.length_append] at hd

/-- Among the first `existing.length + 1` candidates, at least one is
free (pigeonhole over the distinct candidate names). -/
theorem exists_free_candidate (existing : List String) (orig : String) :
    ∃ n, 1 ≤ n ∧ n ≤ existing.length + 1 ∧ mkImportedName orig n ∉ existing := by
  by_contra hcon
  push_neg at hcon
  have hsub : (Finset.range (existing.length + 1)).image
      (fun j => mkImportedName orig (j + 1)) ⊆ existing.toFinset := by
    intro s hs
    simp only [Finset.mem_image, Finset.mem_range] at hs
    obtain ⟨j, hj, rfl⟩ := hs
    exact List.mem_toFinset.mpr (hcon (j + 1) (by omega) (by omega))
  have hinj : Function.Injective (fun j => mkImportedName orig (j + 1)) := by
    intro x y hxy
    have := mkImportedName_inj orig hxy
    omega
  have hcard := Finset.card_le_card hsub
  rw [Finset.card_image_of_injective _ hinj, Finset.card_range] at hcard
  have hle := existing.toFinset_card_le
  omega

/-- The collision loop is the identity on a free current name. -/
theorem resolveLoop_notMem (existing : List String) (orig cur : String)
    (h : cur ∉ existing) : ∀ fuel k, resolveLoop existing orig fuel cur k = cur := by
  intro fuel k
  cases fuel <;> simp [resolveLoop, h]

/-- When some candidate within the fuel budget is free and the current
name collides, the loop returns the first free candidate, every earlier
candidate being occupied. -/
theorem resolveLoop_found (existing : List String) (orig : String) :
    ∀ fuel k cur, (∃ j, j < fuel ∧ mkImportedName orig (k + j) ∉ existing) →
      cur ∈ existing →
      ∃ t, t < fuel ∧
        resolveLoop existing orig fuel cur k = mkImportedName orig (k + t) ∧
        mkImportedName orig (k + t) ∉ existing ∧
        ∀ s, s < t → mkImportedName orig (k + s) ∈ existing := by
  intro fuel
  induction fuel with
  | zero => intro k cur hex _; obtain ⟨j, hj, _⟩ := hex; omega
  | succ f ihf =>
    intro k cur hex hcur
    rw [show resolveLoop existing orig (f + 1) cur k =
        resolveLoop existing orig f (mkImportedName orig k) (k + 1) by
      simp [resolveLoop, hcur]]
    by_cases hk : mkImportedName orig k ∈ existing
    · obtain ⟨j, hj, hfree⟩ := hex
      have hj0 : j ≠ 0 := by
        intro h0
        rw [h0, Nat.add_zero] at hfree
        exact hfree hk
      obtain ⟨j2, rfl⟩ : ∃ j2, j = j2 + 1 := ⟨j - 1, by omega⟩
      have hex2 : ∃ j3, j3 < f ∧ mkImportedName orig (k + 1 + j3) ∉ existing :=
        ⟨j2, by omega, by rw [show k + 1 + j2 = k + (j2 + 1) by omega]; exact hfree⟩
      obtain ⟨t2, ht2f, hres, hfree2, hall⟩ := ihf (k + 1) (mkImportedName orig k) hex2 hk
      refine ⟨t2 + 1, by omega, ?_, ?_, ?_⟩
      · rw [hres]; congr 1; omega
      · rw [show k + (t2 + 1) = k + 1 + t2 by omega]; exact hfree2
      · intro s hs
        cases s with
        | zero => simpa using hk
        | succ s2 =>
          rw [show k + (s2 + 1) = k + 1 + s2 by omega]
          exact hall s2 (by omega)
    · refine ⟨0, by omega, ?_, by simpa using hk, by omega⟩
      rw [resolveLoop_notMem existing orig _ hk]
      simp

/-- Claim C7: importing under a colliding pipeline name appends
" (imported N)" with N starting at 1 and incrementing until the name is
unique — the resolved name is never an existing one, a non-colliding name
is kept verbatim, a colliding one becomes the first free candidate
(every smaller counter being taken), and in particular with "Cam1"
existing the resolution yields "Cam1 (imported 1)", and with
"Cam1 (imported 1)" also existing it yields "Cam1 (imported 2)". -/
theorem importNameCollision :
    (∀ (existing : List String) (orig : String),
      resolveName existing orig ∉ existing) ∧
    (∀ (existing : List String) (orig : String), orig ∉ existing →
      resolveName existing orig = orig) ∧
    (∀ (existing : List String) (orig : String), orig ∈ existing →
      ∃ n, 1 ≤ n ∧ resolveName existing orig = mkImportedName orig n ∧
        ∀ m, 1 ≤ m → m < n → mkImportedName orig m ∈ existing) ∧
    resolveName ["Cam1"] "Cam1" = "Cam1 (imported 1)" ∧
    resolveName ["Cam1", "Cam1 (imported 1)"] "Cam1" = "Cam1 (imported 2)" := by
  have hmain : ∀ (existing : List String) (orig : String), orig ∈ existing →
      ∃ t, resolveName existing orig = mkImportedName orig (1 + t) ∧
        mkImportedName orig (1 + t) ∉ existing ∧
        ∀ s, s < t → mkImportedName orig (1 + s) ∈ existing := by
    intro existing orig h
    obtain ⟨n, hn1, hn2, hfree⟩ := exists_free_candidate existing orig
    have hex : ∃ j, j < existing.length + 2 ∧
        mkImportedName orig (1 + j) ∉ existing :=
      ⟨n - 1, by omega, by rw [show 1 + (n - 1) = n by omega]; exact hfree⟩
    obtain ⟨t, _, hres, hfree2, hall⟩ :=
      resolveLoop_found existing orig (existing.length + 2) 1 orig hex h
    exact ⟨t, hres, hfree2, hall⟩
  refine ⟨?_, ?_, ?_, by decide, by decide⟩
  · intro existing orig
    by_cases h : orig ∈ existing
    · obtain ⟨t, hres, hfree2, _⟩ := hmain existing orig h
      rw [resolveName] at hres
      rw [resolveName, hres]
      exact hfree2
    · rw [resolveName, resolveLoop_notMem existing orig orig h]
      exact h
  · intro existing orig h
    rw [resolveName, resolveLoop_notMem existing orig orig h]
  · intro existing orig h
    obtain ⟨t, hres, _, hall⟩ := hmain existing orig h
    refine ⟨1 + t, by omega, hres, ?_⟩
    intro m hm1 hmt
    rw [show m = 1 + (m - 1) by omega]
    exact hall (m - 1) (by omega)

/-- Witness for `importNameCollision` at concrete name lists. -/
theorem importNameCollision_witness :
    resolveName ["Other"] "Cam1" = "Cam1" ∧
    (∃ n, 1 ≤ n ∧ resolveName ["Cam1"] "Cam1" = mkImportedName "Cam1" n ∧
      ∀ m, 1 ≤ m → m < n → mkImportedName "Cam1" m ∈ ["Cam1"]) :=
  ⟨importNameCollision.2.1 ["Other"] "Cam1" (by decide),
   importNameCollision.2.2.1 ["Cam1"] "Cam1" (by decide)⟩

/-- Claim C8: import validation — a missing root configuration document,
or a missing `name`, `frame_source` or `model` field (checked in that
order), fails with a 400 error naming the missing document or field, and
leaves the registries (models, pipelines, id counters) untouched. -/
theorem importValidation (storedBaseOf : Nat → String) (a : Archive) (st : NodeState) :
    (a.config = none →
      importPipeline storedBaseOf a st =
        (.err 400 "Invalid pipeline export: missing pipeline_config.json", st)) ∧
    (∀ c, a.config = some c → c.name = none →
      importPipeline storedBaseOf a st =
        (.err 400 "Invalid pipeline configuration: missing name", st)) ∧
    (∀ c, a.config = some c → c.name.isSome = true → c.frame_source = none →
      importPipeline storedBaseOf a st =
        (.err 400 "Invalid pipeline configuration: missing frame_source", st)) ∧
    (∀ c, a.config = some c → c.name.isSome = true → c.frame_source.isSome = true →
      c.model = none →
      importPipeline storedBaseOf a st =
        (.err 400 "Invalid pipeline configuration: missing model", st)) := by
  refine ⟨?_, ?_, ?_, ?_⟩
  · intro h
    simp [importPipeline, h]
  · intro c hc hn
    simp [importPipeline, hc, hn]
  · intro c hc hn hf
    obtain ⟨v, hv⟩ := Option.isSome_iff_exists.mp hn
    simp [importPipeline, hc, hv, hf]
  · intro c hc hn hf hm
    obtain ⟨v, hv⟩ := Option.isSome_iff_exists.mp hn
    obtain ⟨w, hw⟩ := Option.isSome_iff_exists.mp hf
    simp [importPipeline, hc, hv, hw, hm]

/-- Witness for `importValidation`: a config-less archive and an archive
missing `frame_source`, both against an empty node state. -/
theorem importValidation_witness :
    importPipeline (fun _ => "m") { config := none }
        { models := [], pipelines := [], nextModelId := 0, nextPipelineId := 0 } =
      (.err 400 "Invalid pipeline export: missing pipeline_config.json",
       { models := [], pipelines := [], nextModelId := 0, nextPipelineId := 0 }) ∧
    importPipeline (fun _ => "m") { config := some { name := some "P" } }
        { models := [], pipelines := [], nextModelId := 0, nextPipelineId := 0 } =
      (.err 400 "Invalid pipeline configuration: missing frame_source",
       { models := [], pipelines := [], nextModelId := 0, nextPipelineId := 0 }) :=
  ⟨(importValidation (fun _ => "m") { config := none }
      { models := [], pipelines := [], nextModelId := 0, nextPipelineId := 0 }).1 rfl,
   (importValidation (fun _ => "m") { config := some { name := some "P" } }
      { models := [], pipelines := [], nextModelId := 0, nextPipelineId := 0 }).2.2.1
      { name := some "P" } rfl rfl rfl⟩

/-- Keys with no occurrence in an association list look up to nothing. -/
theorem lookupKey_none_of_all_ne {α : Type} :
    ∀ (dir : List (String × α)) (k : String), (∀ p ∈ dir, p.1 ≠ k) →
      lookupKey dir k = none := by
  intro dir k
  induction dir with
  | nil => intro _; rfl
  | cons p rest ihp =>
    intro h
    have hp := h p (by simp)
    simp only [lookupKey, if_neg hp]
    exact ihp (fun q hq => h q (by simp [hq]))

/-- Overwriting every entry under key `k` makes `k` look up to the new
value, provided some entry carries `k`. -/
theorem lookupKey_map_set {α : Type} (k : String) (v : α) :
    ∀ (dir : List (String × α)), dir.any (fun p => decide (p.1 = k)) = true →
      lookupKey (dir.map (fun p => if p.1 = k then (k, v) else p)) k = some v := by
  intro dir
  induction dir with
  | nil => intro h; simp at h
  | cons p rest ihp =>
    intro h
    rw [List.map_cons]
    by_cases hp : p.1 = k
    · rw [if_pos hp]
      simp [lookupKey]
    · rw [if_neg hp]
      simp only [lookupKey, if_neg hp]
      apply ihp
      simp only [List.any_cons, Bool.or_eq_true, decide_eq_true_eq] at h
      rcases h with h | h
      · exact absurd h hp
      · exact h

/-- Overwriting entries under key `k` leaves other keys unchanged. -/
theorem lookupKey_map_set_other {α : Type} (k k2 : String) (v : α) (hne : k2 ≠ k) :
    ∀ (dir : List (String × α)),
      lookupKey (dir.map (fun p => if p.1 = k then (k, v) else p)) k2 =
        lookupKey dir k2 := by
  intro dir
  induction dir with
  | nil => rfl
  | cons p rest ihp =>
    rw [List.map_cons]
    by_cases hp : p.1 = k
    · rw [if_pos hp]
      have h1 : ¬ (k = k2) := fun h => hne h.symm
      have h2 : ¬ (p.1 = k2) := by rw [hp]; exact h1
      simp only [lookupKey, if_neg h1, if_neg h2]
      exact ihp
    · rw [if_neg hp]
      simp only [lookupKey]
      by_cases hq : p.1 = k2
      · simp [hq]
      · simp only [if_neg hq]
        exact ihp

/-- `upsert` makes its key look up to its value. -/
theorem lookupKey_upsert_self (dir : List (String × Nat)) (k : String) (v : Nat) :
    lookupKey (upsert dir k v) k = some v := by
  by_cases h : dir.any (fun p => decide (p.1 = k)) = true
  · simp only [upsert, if_pos h]
    exact lookupKey_map_set k v dir h
  · simp only [upsert, if_neg h]
    rw [lookupKey_append]
    have hnone : lookupKey dir k = none := by
      apply lookupKey_none_of_all_ne
      intro p hp
      simp only [List.any_eq_true, decide_eq_true_eq] at h
      push_neg at h
      exact h p hp
    rw [hnone]
    simp [lookupKey]

/-- `upsert` leaves other keys unchanged. -/
theorem lookupKey_upsert_other (dir : List (String × Nat)) (k k2 : String) (v : Nat)
    (hne : k2 ≠ k) : lookupKey (upsert dir k v) k2 = lookupKey dir k2 := by
  by_cases h : dir.any (fun p => decide (p.1 = k)) = true
  · simp only [upsert, if_pos h]
    exact lookupKey_map_set_other k k2 v hne dir
  · simp only [upsert, if_neg h]
    rw [lookupKey_append]
    cases hd : lookupKey dir k2 with
    | some w => rfl
    | none =>
      have h1 : ¬ (k = k2) := fun hh => hne hh.symm
      simp [lookupKey, h1]

/-- `upsert` preserves distinctness of the directory's filenames. -/
theorem upsert_keys_nodup (dir : List (String × Nat)) (k : String) (v : Nat)
    (hnd : (dir.map Prod.fst).Nodup) : ((upsert dir k v).map Prod.fst).Nodup := by
  by_cases h : dir.any (fun p => decide (p.1 = k)) = true
  · simp only [upsert, if_pos h]
    have hkeys : (dir.map (fun p => if p.1 = k then (k, v) else p)).map Prod.fst =
        dir.map Prod.fst := by
      rw [List.map_map]
      apply List.map_congr_left
      intro p _
      by_cases hp : p.1 = k <;> simp [hp]
    rw [hkeys]
    exact hnd
  · simp only [upsert, if_neg h]
    rw [List.map_append]
    rw [List.nodup_append]
    refine ⟨hnd, List.nodup_singleton k, ?_⟩
    intro x hx hk
    simp only [List.map_cons, List.map_nil, List.mem_singleton] at hk
    subst hk
    simp only [List.mem_map] at hx
    obtain ⟨p, hp, hpk⟩ := hx
    simp only [List.any_eq_true, decide_eq_true_eq] at h
    exact h ⟨p, hp, hpk⟩

/-- `upsert` with a `base`-prefixed key preserves the directory shape in
which every filename is `base` followed by an extension. -/
theorem upsert_keys_form (dir : List (String × Nat)) (base e0 : String) (v : Nat)
    (hform : ∀ p ∈ dir, ∃ e, p.1 = base ++ e) :
    ∀ p ∈ upsert dir (base ++ e0) v, ∃ e, p.1 = base ++ e := by
  intro p hp
  by_cases h : dir.any (fun q => decide (q.1 = base ++ e0)) = true
  · simp only [upsert, if_pos h, List.mem_map] at hp
    obtain ⟨q, hq, rfl⟩ := hp
    by_cases hqk : q.1 = base ++ e0
    · simp only [if_pos hqk]
      exact ⟨e0, rfl⟩
    · simp only [if_neg hqk]
      exact hform q hq
  · simp only [upsert, if_neg h, List.mem_append, List.mem_singleton] at hp
    rcases hp with hp | hp
    · exact hform p hp
    · subst hp
      exact ⟨e0, rfl⟩

/-- The sibling-copy loop preserves distinct filenames. -/
theorem copySiblings_nodup (base main : String) :
    ∀ (files : List SibFile) (dir : List (String × Nat)),
      (dir.map Prod.fst).Nodup →
      ((copySiblings base main files dir).map Prod.fst).Nodup := by
  intro files
  induction files with
  | nil => intro dir h; exact h
  | cons f rest ihf =>
    intro dir h
    by_cases hcp : isCopied main f = true
    · rw [show copySiblings base main (f :: rest) dir =
          copySiblings base main rest (upsert dir (base ++ f.ext) f.content) by
        simp [copySiblings, hcp]]
      exact ihf _ (upsert_keys_nodup dir (base ++ f.ext) f.content h)
    · rw [show copySiblings base main (f :: rest) dir =
          copySiblings base main rest dir by simp [copySiblings, hcp]]
      exact ihf _ h

/-- The sibling-copy loop only writes filenames of the form
`base ++ extension`. -/
theorem copySiblings_form (base main : String) :
    ∀ (files : List SibFile) (dir : List (String × Nat)),
      (∀ p ∈ dir, ∃ e, p.1 = base ++ e) →
      ∀ p ∈ copySiblings base main files dir, ∃ e, p.1 = base ++ e := by
  intro files
  induction files with
  | nil => intro dir h; exact h
  | cons f rest ihf =>
    intro dir h
    by_cases hcp : isCopied main f = true
    · rw [show copySiblings base main (f :: rest) dir =
          copySiblings base main rest (upsert dir (base ++ f.ext) f.content) by
        simp [copySiblings, hcp]]
      exact ihf _ (upsert_keys_form dir base f.ext f.content h)
    · rw [show copySiblings base main (f :: rest) dir =
          copySiblings base main rest dir by simp [copySiblings, hcp]]
      exact ihf _ h

/-- Appending to a string is cancellative on the left. -/
theorem string_append_left_cancel {s x y : String} (h : s ++ x = s ++ y) : x = y := by
  have hd := congrArg String.data h
  simp only [String.data_append, List.append_cancel_left_eq] at hd
  exact String.ext hd

/-- `lastWithExt` returns a file of the requested extension. -/
theorem lastWithExt_ext (e : String) :
    ∀ (l : List SibFile) (g : SibFile), lastWithExt e l = some g → g.ext = e := by
  intro l
  induction l with
  | nil => intro g h; simp [lastWithExt] at h
  | cons f fs ihf =>
    intro g h
    simp only [lastWithExt] at h
    cases hl : lastWithExt e fs with
    | some g2 =>
      rw [hl] at h
      exact ihf g (by rw [hl]; simpa using h)
    | none =>
      rw [hl] at h
      by_cases hext : f.ext = e
      · simp only [if_pos hext] at h
        cases h
        exact hext
      · simp [if_neg hext] at h

/-- A member's extension always has a last representative. -/
theorem lastWithExt_isSome_of_mem (e : String) :
    ∀ (l : List SibFile) (f : SibFile), f ∈ l → f.ext = e →
      ∃ g, lastWithExt e l = some g := by
  intro l
  induction l with
  | nil => intro f h; simp at h
  | cons f0 fs ihf =>
    intro f hf he
    simp only [List.mem_cons] at hf
    simp only [lastWithExt]
    cases hl : lastWithExt e fs with
    | some g2 => exact ⟨g2, rfl⟩
    | none =>
      rcases hf with rfl | hf
      · exact ⟨f, by simp [he]⟩
      · obtain ⟨g, hg⟩ := ihf f hf he
        rw [hg] at hl
        cases hl

/-- The directory produced by the sibling-copy loop: looking up
`base ++ e` returns the content of the LAST copied file with extension
`e`, falling back to the initial directory when no copied file has that
extension. -/
theorem copySiblings_lookup (base main : String) :
    ∀ (files : List SibFile) (dir : List (String × Nat)) (e : String),
      lookupKey (copySiblings base main files dir) (base ++ e) =
        (match lastWithExt e (files.filter (isCopied main)) with
         | some g => some g.content
         | none => lookupKey dir (base ++ e)) := by
  intro files
  induction files with
  | nil => intro dir e; simp [copySiblings, lastWithExt]
  | cons f rest ihf =>
    intro dir e
    by_cases hcp : isCopied main f = true
    · rw [show copySiblings base main (f :: rest) dir =
          copySiblings base main rest (upsert dir (base ++ f.ext) f.content) by
        simp [copySiblings, hcp]]
      rw [ihf]
      rw [show (f :: rest).filter (isCopied main) =
          f :: rest.filter (isCopied main) by simp [List.filter_cons, hcp]]
      cases hl : lastWithExt e (rest.filter (isCopied main)) with
      | some g => simp [lastWithExt, hl]
      | none =>
        simp only [lastWithExt, hl]
        by_cases hext : f.ext = e
        · rw [if_pos hext, hext]
          exact lookupKey_upsert_self dir (base ++ e) f.content
        · rw [if_neg hext]
          apply lookupKey_upsert_other
          intro hcontra
          exact hext (string_append_left_cancel hcontra).symm
    · rw [show copySiblings base main (f :: rest) dir =
          copySiblings base main rest dir by simp [copySiblings, hcp]]
      rw [ihf]
      rw [show (f :: rest).filter (isCopied main) =
          rest.filter (isCopied main) by simp [List.filter_cons, hcp]]

/-- Claim C10: every extracted model file other than the main file and the
metadata document is copied as `{new-model-base}{extension}`, so the
resulting directory has only `base ++ ext` filenames, all distinct (at
most one file per distinct extension), and the content stored under
`base ++ e` is that of the LAST copied sibling with extension `e` —
later copies overwrite earlier ones. -/
theorem siblingCopyOverwrite (base mainName : String) (files : List SibFile)
    (dir0 : List (String × Nat))
    (hform : ∀ p ∈ dir0, ∃ e, p.1 = base ++ e)
    (hnd : (dir0.map Prod.fst).Nodup) :
    ((copySiblings base mainName files dir0).map Prod.fst).Nodup ∧
    (∀ p ∈ copySiblings base mainName files dir0, ∃ e, p.1 = base ++ e) ∧
    (∀ f ∈ files.filter (isCopied mainName),
      ∃ g, lastWithExt f.ext (files.filter (isCopied mainName)) = some g ∧
        g.ext = f.ext ∧
        lookupKey (copySiblings base mainName files dir0) (base ++ f.ext) =
          some g.content) := by
  refine ⟨copySiblings_nodup base mainName files dir0 hnd,
          copySiblings_form base mainName files dir0 hform, ?_⟩
  intro f hf
  obtain ⟨g, hg⟩ :=
    lastWithExt_isSome_of_mem f.ext (files.filter (isCopied mainName)) f hf rfl
  refine ⟨g, hg, lastWithExt_ext f.ext _ g hg, ?_⟩
  rw [copySiblings_lookup base mainName files dir0 f.ext, hg]

/-- Witness for `siblingCopyOverwrite`: two siblings sharing `.txt` are
copied over the same destination name. -/
theorem siblingCopyOverwrite_witness :
    ∃ g, lastWithExt ".txt"
        (([⟨"a", ".txt", 1⟩, ⟨"b", ".txt", 2⟩] : List SibFile).filter
          (isCopied "m.onnx")) = some g ∧
      g.ext = ".txt" ∧
      lookupKey (copySiblings "model_7" "m.onnx"
          ([⟨"a", ".txt", 1⟩, ⟨"b", ".txt", 2⟩] : List SibFile) [])
        ("model_7" ++ ".txt") = some g.content :=
  (siblingCopyOverwrite "model_7" "m.onnx"
      ([⟨"a", ".txt", 1⟩, ⟨"b", ".txt", 2⟩] : List SibFile) []
      (by intro p hp; simp at hp) (by simp)).2.2
    ⟨"a", ".txt", 1⟩ (by decide)

end InferenceNode
